import Mathlib

/-!
Shallow embedding of `scripts/update_installerinfo.py`.

The script builds one installer markdown card from a GitHub release JSON.
Pure string/number processing is translated function by function; the
process-terminating error paths (`raise SystemExit`, `KeyError`,
`ValueError`/`TypeError` from date parsing) are modelled with
`Except String`.  Strings are modelled through their `List Char` data;
Python `str.lower` is modelled by ASCII lowering (`Char.toLower`), and
`\d` by ASCII digits, which agree with Python on the ASCII release tags
and asset names this script processes.
-/

namespace InstallerInfo

/-- Helper: `p` is a prefix of `l` (Python `str.startswith` on char lists). -/
def startsWithChars : List Char → List Char → Bool
  | [], _ => true
  | _ :: _, [] => false
  | p :: ps, c :: cs => p == c && startsWithChars ps cs

/-- Helper: `pat` occurs as a contiguous substring of `l` (Python `in`). -/
def containsChars (pat : List Char) : List Char → Bool
  | [] => pat.isEmpty
  | c :: cs => startsWithChars pat (c :: cs) || containsChars pat cs

/-- Helper: `suf` is a suffix of `l` (Python `str.endswith`). -/
def endsWithChars (suf l : List Char) : Bool :=
  startsWithChars suf.reverse l.reverse

/-- Python `s.lower()`, ASCII lowering, viewed as a char list. -/
def lowerStr (s : String) : List Char :=
  s.data.map Char.toLower

/-- Greedy match of the regex `\d+\.\d+(?:\.\d+)?` anchored at the start of
`cs`, as `re` would attempt it at one search position: a maximal digit run,
a dot, a maximal digit run, optionally a dot and a third maximal digit run
(the optional group is dropped when `.` is not followed by a digit).
Returns the matched characters. -/
def matchVersionAt (cs : List Char) : Option (List Char) :=
  let d1 := cs.takeWhile Char.isDigit
  if d1.isEmpty then none
  else
    match cs.dropWhile Char.isDigit with
    | [] => none
    | c :: r2 =>
      if c = '.' then
        let d2 := r2.takeWhile Char.isDigit
        if d2.isEmpty then none
        else
          match r2.dropWhile Char.isDigit with
          | [] => some (d1 ++ '.' :: d2)
          | c2 :: r4 =>
            if c2 = '.' then
              let d3 := r4.takeWhile Char.isDigit
              if d3.isEmpty then some (d1 ++ '.' :: d2)
              else some (d1 ++ '.' :: d2 ++ '.' :: d3)
            else some (d1 ++ '.' :: d2)
      else none

/-- `re.search(r"(\d+\.\d+(?:\.\d+)?)", ·)`: try every position left to
right and return the first (leftmost) match. -/
def searchVersion : List Char → Option (List Char)
  | [] => none
  | c :: cs =>
    match matchVersionAt (c :: cs) with
    | some v => some v
    | none => searchVersion cs

/-- Python `version_from_tag`: extract a dotted version number from the tag
and normalize it to three components; `"0.0.0"` when nothing matches. -/
def version_from_tag (tag : String) : String :=
  match searchVersion tag.data with
  | none => "0.0.0"
  | some v => if v.count '.' = 2 then String.mk v else String.mk v ++ ".0"

/-- Python regex `\s` restricted to ASCII whitespace. -/
def pySpace (c : Char) : Bool :=
  c == ' ' || c == '\t' || c == '\n' || c == '\r' || c == '\x0b' || c == '\x0c'

/-- The character class `[-_\s]` of the ubuntu patterns. -/
def ubuntuSep (c : Char) : Bool :=
  c == '-' || c == '_' || pySpace c

/-- Match of `ubuntu[-_\s]?NM` anchored at the start of `cs`, where
`[d1, d2]` are the two digits (`24` or `22`). -/
def matchUbuntuAt (d1 d2 : Char) (cs : List Char) : Bool :=
  startsWithChars "ubuntu".data cs &&
    (startsWithChars [d1, d2] (cs.drop 6) ||
      match cs.drop 6 with
      | c :: r2 => ubuntuSep c && startsWithChars [d1, d2] r2
      | [] => false)

/-- `re.search(r"ubuntu[-_\s]?NM", ·)` as a boolean: does the pattern occur
anywhere in `cs`? -/
def searchUbuntu (d1 d2 : Char) : List Char → Bool
  | [] => false
  | c :: cs => matchUbuntuAt d1 d2 (c :: cs) || searchUbuntu d1 d2 cs

/-- Python `os_slug_from_tag`: classify the lowered tag, testing the two
ubuntu patterns first, then plain substrings, defaulting to `"windows"`. -/
def os_slug_from_tag (tag : String) : String :=
  let t := lowerStr tag
  if searchUbuntu '2' '4' t then "ubuntu_24"
  else if searchUbuntu '2' '2' t then "ubuntu_22"
  else if containsChars "windows".data t then "windows"
  else if containsChars "macos".data t || containsChars "mac".data t then "macos"
  else if containsChars "linux".data t then "linux"
  else "windows"

/-- Python `infer_os_for_frontmatter`: classify using the lowered tag and
asset name joined by a space, plus the asset name's extension, defaulting
to `"windows"`. -/
def infer_os_for_frontmatter (tag asset_name : String) : String :=
  let hay := lowerStr tag ++ ' ' :: lowerStr asset_name
  let an := lowerStr asset_name
  if containsChars "windows".data hay || endsWithChars ".exe".data an ||
      endsWithChars ".msi".data an then "windows"
  else if containsChars "macos".data hay || containsChars "mac".data hay ||
      endsWithChars ".dmg".data an || endsWithChars ".pkg".data an then "mac"
  else if containsChars "linux".data hay || containsChars "ubuntu".data hay ||
      endsWithChars ".appimage".data an || endsWithChars ".deb".data an ||
      endsWithChars ".tar.gz".data an || endsWithChars ".tgz".data an then "linux"
  else "windows"

/-- Python `os_meta`: the front-matter metadata table.  A key outside the
table raises `KeyError`, modelled by `none`. -/
def os_meta (os_key : String) : Option (String × String × String × String × Nat × String) :=
  if os_key = "windows" then
    some ("Windows", "Windows", "Windows 10, 11", "windows", 1, "windows")
  else if os_key = "linux" then
    some ("Linux", "Linux", "Ubuntu 22.04+", "linux", 2, "linux")
  else if os_key = "mac" then
    some ("macOS", "macOS", "macOS 12+ (Apple & Intel)", "mac", 3, "apple")
  else none

/-- Python `iso.replace("Z", "+00:00")` on the char list. -/
def replaceZ : List Char → List Char
  | [] => []
  | 'Z' :: r => '+' :: '0' :: '0' :: ':' :: '0' :: '0' :: replaceZ r
  | c :: r => c :: replaceZ r

/-- Python `fmt_date`: replace `Z` by `+00:00`, parse the ISO timestamp,
convert to UTC and reformat as `YYYY-MM-DD HH:MM:SS`.  Modelled on the
UTC (`+00:00` offset) timestamps the GitHub API returns, for which the
conversion is the identity on the instant; any other input is treated as
a parse failure (`none`, the exception path). -/
def fmt_date (iso : String) : Option String :=
  match replaceZ iso.data with
  | [y1, y2, y3, y4, '-', m1, m2, '-', d1, d2, 'T',
     h1, h2, ':', i1, i2, ':', s1, s2, '+', '0', '0', ':', '0', '0'] =>
    if ([y1, y2, y3, y4, m1, m2, d1, d2, h1, h2, i1, i2, s1, s2].all Char.isDigit) then
      some (String.mk [y1, y2, y3, y4, '-', m1, m2, '-', d1, d2, ' ',
                       h1, h2, ':', i1, i2, ':', s1, s2])
    else none
  | _ => none

/-- Round `num / den` to the nearest integer, ties to even: the behaviour
of Python `round` on the exact quotient.  `size_mb` divides by `2^20` in
binary floating point, which is exact for every `num < 2^53`, so on that
range (far beyond any installer size) this is exactly what the script
computes. -/
def roundHalfEven (num den : Nat) : Nat :=
  let q := num / den
  let r := num % den
  if 2 * r < den then q
  else if den < 2 * r then q + 1
  else if q % 2 = 0 then q else q + 1

/-- Python `size_mb`: `f"{round((nbytes or 0) / 1024 / 1024)} MB"`.
`none` models a JSON `null` size (Python `None`), which `or 0` turns
into `0`. -/
def size_mb (nbytes : Option Nat) : String :=
  Nat.repr (roundHalfEven (nbytes.getD 0) (1024 * 1024)) ++ " MB"

/-- Modelled from the spec: the everyday reading of "standard rounding",
round half away from zero, used to compare against the code. -/
def roundHalfUp (num den : Nat) : Nat :=
  (2 * num + den) / (2 * den)

/-- Python `render_md`: the f-string template, one `++` chunk per
template fragment (trailing space after `image:` and the three spaces
after `date:` are in the source). -/
def render_md (name short compat key : String) (order : Nat)
    (icon version date_str size_str url : String) : String :=
  "---\n" ++
  "layout: plugin\n" ++
  "name: \"" ++ name ++ "\"\n" ++
  "shortname: \"" ++ short ++ "\"\n" ++
  "compatibility: \"" ++ compat ++ "\"\n" ++
  "key: " ++ key ++ "\n" ++
  "type: installer\n" ++
  "image: \n" ++
  "version: " ++ version ++ "\n" ++
  "date:   " ++ date_str ++ "\n" ++
  "order: " ++ Nat.repr order ++ "\n" ++
  "icon: " ++ icon ++ "\n" ++
  "size: " ++ size_str ++ "\n" ++
  "\n" ++
  "organization: ManiVault\n" ++
  "organization-link: https://www.manivault.studio\n" ++
  "download-link: " ++ url ++ "\n" ++
  "---\n" ++
  version ++ " release of ManiVault Studio.\n"

/-- Python f-string interpolation of a value that may be `None`:
`f"{None}"` renders as the text `None`. -/
def pyStr : Option String → String
  | some s => s
  | none => "None"

/-- Python `a or b` on two optional strings: `a` unless it is `None` or
empty (falsy), else `b`. -/
def pyOrStr (a b : Option String) : Option String :=
  match a with
  | some s => if s = "" then b else some s
  | none => b

/-- One entry of the release's `assets` array; absent JSON keys and JSON
`null` are both `none`. -/
structure Asset where
  name : Option String
  size : Option Nat
  browser_download_url : Option String

/-- The release JSON fields `main` reads. -/
structure Release where
  tag_name : Option String
  assets : Option (List Asset)
  published_at : Option String
  created_at : Option String

/-- Python `main`, from the fetched release JSON onwards: derive the
fields, and return the output file name together with the rendered
markdown.  `Except.error` models process termination before the file is
written (`SystemExit` for a release without assets, `KeyError` from
`os_meta`, and the exceptions `fmt_date` raises on a missing or
malformed date). -/
def main (rel : Release) : Except String (String × String) :=
  match rel.assets.getD [] with
  | [] => Except.error "Release has no assets; cannot create installer card."
  | a0 :: _ =>
    let tag := rel.tag_name.getD ""
    let aname := a0.name.getD ""
    match os_meta (infer_os_for_frontmatter tag aname) with
    | none => Except.error "KeyError"
    | some (name, short, compat, key, order, icon) =>
      match pyOrStr rel.published_at rel.created_at with
      | none => Except.error "fmt_date: argument is None"
      | some iso =>
        match fmt_date iso with
        | none => Except.error "fmt_date: unparsable timestamp"
        | some date_str =>
          Except.ok
            (version_from_tag tag ++ "_" ++ os_slug_from_tag tag ++ ".md",
             render_md name short compat key order icon (version_from_tag tag)
               date_str (size_mb a0.size) (pyStr a0.browser_download_url))

/-! Specification-side vocabulary used to state the claims. -/

/-- A nonempty run of decimal digits. -/
def allDigits (l : List Char) : Prop :=
  l ≠ [] ∧ ∀ c ∈ l, c.isDigit

/-- `m` occurs contiguously inside `cs`. -/
def occursIn (m cs : List Char) : Prop :=
  ∃ pre post, cs = pre ++ m ++ post

/-- `v` is a two- or three-part dotted version number. -/
def versionCore (v : List Char) : Prop :=
  (∃ a b, v = a ++ '.' :: b ∧ allDigits a ∧ allDigits b) ∨
  (∃ a b c, v = a ++ '.' :: b ++ '.' :: c ∧ allDigits a ∧ allDigits b ∧ allDigits c)

/-- The tag text contains a two-part dotted version number somewhere
(a three-part number contains a two-part one, so this covers both). -/
def hasDottedVersion (cs : List Char) : Prop :=
  ∃ pre a b post, cs = pre ++ a ++ '.' :: b ++ post ∧ allDigits a ∧ allDigits b

/-- The front-matter key of a line: the text before the first `:`,
or `none` for a line without a colon. -/
def lineKey (l : List Char) : Option (List Char) :=
  match l.dropWhile (fun c => c != ':') with
  | [] => none
  | _ :: _ => some (l.takeWhile fun c => c != ':')

/-- The fixed key set of the generated front matter, in template order. -/
def frontMatterKeys : List (List Char) :=
  ["layout".data, "name".data, "shortname".data, "compatibility".data,
   "key".data, "type".data, "image".data, "version".data, "date".data,
   "order".data, "icon".data, "size".data, "organization".data,
   "organization-link".data, "download-link".data]

/-- Join lines, terminating each with a newline. -/
def joinNL (ls : List (List Char)) : List Char :=
  ls.foldr (fun l acc => l ++ '\n' :: acc) []

end InstallerInfo

namespace InstallerInfo

/-! Helper lemmas. -/

-- If every element of `k` satisfies `p` and `x` does not, `takeWhile` and
-- `dropWhile` split `k ++ x :: r` exactly at `x`.
theorem takeWhile_append_of_not (p : Char → Bool) (k : List Char) (x : Char) (r : List Char)
    (hk : ∀ c ∈ k, p c = true) (hx : p x = false) :
    (k ++ x :: r).takeWhile p = k ∧ (k ++ x :: r).dropWhile p = x :: r := by
  induction k with
  | nil => simp [List.takeWhile, List.dropWhile, hx]
  | cons a k ih =>
    have ha : p a = true := hk a (by simp)
    have ih2 := ih fun c hc => hk c (by simp [hc])
    simp [List.takeWhile, List.dropWhile, ha, ih2.1, ih2.2]

-- Two prefixes of the same list cannot start with different characters.
theorem startsWithChars_head_ne {a b : Char} (p q l : List Char)
    (h : startsWithChars (a :: p) l = true) (hne : a ≠ b) :
    startsWithChars (b :: q) l = false := by
  cases l with
  | nil => simp [startsWithChars] at h
  | cons c cs =>
    simp only [startsWithChars, Bool.and_eq_true, beq_iff_eq] at h
    simp only [startsWithChars, Bool.and_eq_false_iff]
    left
    simp only [beq_eq_false_iff_ne, ne_eq]
    exact fun hbc => hne (by rw [h.1, hbc])

-- `infer_os_for_frontmatter` only ever produces the three table keys.
theorem infer_os_cases (tag an : String) :
    infer_os_for_frontmatter tag an = "windows" ∨ infer_os_for_frontmatter tag an = "mac" ∨
      infer_os_for_frontmatter tag an = "linux" := by
  unfold infer_os_for_frontmatter
  dsimp only
  split_ifs <;> simp

-- The single possible shapes of a successful `os_meta` lookup.
theorem os_meta_some_cases {k : String} {t : String × String × String × String × Nat × String}
    (h : os_meta k = some t) :
    t = ("Windows", "Windows", "Windows 10, 11", "windows", 1, "windows") ∨
    t = ("Linux", "Linux", "Ubuntu 22.04+", "linux", 2, "linux") ∨
    t = ("macOS", "macOS", "macOS 12+ (Apple & Intel)", "mac", 3, "apple") := by
  unfold os_meta at h
  split_ifs at h <;> simp_all

/-- C2: a release whose assets list is missing or empty makes `main` stop
with the descriptive `SystemExit` message; the error result carries no
output pair, so no file is written on this path. -/
theorem C2_no_assets (rel : Release)
    (h : rel.assets = none ∨ rel.assets = some []) :
    main rel = Except.error "Release has no assets; cannot create installer card." := by
  rcases h with h | h <;> simp [main, h]

/-- Witness for C2 at a concrete release without assets. -/
theorem C2_no_assets_witness :
    main { tag_name := some "ManiVault-1.3.0-Ubuntu-24", assets := none,
           published_at := none, created_at := none } =
      Except.error "Release has no assets; cannot create installer card." :=
  C2_no_assets _ (Or.inl rfl)

/-- C9: `infer_os_for_frontmatter` returns exactly one of `"windows"`,
`"mac"`, `"linux"`; these are exactly the keys `os_meta` accepts; hence
the `os_meta` lookup in `main` always succeeds and the `KeyError` branch
is unreachable. -/
theorem C9_os_meta_total :
    (∀ tag an : String,
      infer_os_for_frontmatter tag an = "windows" ∨
      infer_os_for_frontmatter tag an = "mac" ∨
      infer_os_for_frontmatter tag an = "linux") ∧
    (∀ k : String, (os_meta k).isSome = true ↔
      (k = "windows" ∨ k = "mac" ∨ k = "linux")) ∧
    (∀ tag an : String, (os_meta (infer_os_for_frontmatter tag an)).isSome = true) := by
  refine ⟨infer_os_cases, ?_, ?_⟩
  · intro k
    unfold os_meta
    split_ifs with h1 h2 h3 <;> simp_all
  · intro tag an
    rcases infer_os_cases tag an with h | h | h <;> rw [h] <;> rfl

/-- C8: with no recognized hint, `os_slug_from_tag` falls back to
`"windows"`, and with no recognized hint or extension,
`infer_os_for_frontmatter` falls back to `"windows"`. -/
theorem C8_default_windows :
    (∀ tag : String,
      searchUbuntu '2' '4' (lowerStr tag) = false →
      searchUbuntu '2' '2' (lowerStr tag) = false →
      containsChars "windows".data (lowerStr tag) = false →
      containsChars "macos".data (lowerStr tag) = false →
      containsChars "mac".data (lowerStr tag) = false →
      containsChars "linux".data (lowerStr tag) = false →
      os_slug_from_tag tag = "windows") ∧
    (∀ tag an : String,
      containsChars "windows".data (lowerStr tag ++ ' ' :: lowerStr an) = false →
      containsChars "macos".data (lowerStr tag ++ ' ' :: lowerStr an) = false →
      containsChars "mac".data (lowerStr tag ++ ' ' :: lowerStr an) = false →
      containsChars "linux".data (lowerStr tag ++ ' ' :: lowerStr an) = false →
      containsChars "ubuntu".data (lowerStr tag ++ ' ' :: lowerStr an) = false →
      endsWithChars ".exe".data (lowerStr an) = false →
      endsWithChars ".msi".data (lowerStr an) = false →
      endsWithChars ".dmg".data (lowerStr an) = false →
      endsWithChars ".pkg".data (lowerStr an) = false →
      endsWithChars ".appimage".data (lowerStr an) = false →
      endsWithChars ".deb".data (lowerStr an) = false →
      endsWithChars ".tar.gz".data (lowerStr an) = false →
      endsWithChars ".tgz".data (lowerStr an) = false →
      infer_os_for_frontmatter tag an = "windows") := by
  constructor
  · intro tag h1 h2 h3 h4 h5 h6
    simp [os_slug_from_tag, h1, h2, h3, h4, h5, h6]
  · intro tag an h1 h2 h3 h4 h5 h6 h7 h8 h9 h10 h11 h12 h13
    simp [infer_os_for_frontmatter, h1, h2, h3, h4, h5, h6, h7, h8, h9, h10, h11, h12, h13]

/-- Witness for C8 at concrete unrecognized inputs. -/
theorem C8_default_windows_witness :
    os_slug_from_tag "ManiVault 9000" = "windows" ∧
      infer_os_for_frontmatter "ManiVault 9000" "setup.bin" = "windows" :=
  ⟨C8_default_windows.1 "ManiVault 9000" (by decide) (by decide) (by decide) (by decide)
      (by decide) (by decide),
   C8_default_windows.2 "ManiVault 9000" "setup.bin" (by decide) (by decide) (by decide)
      (by decide) (by decide) (by decide) (by decide) (by decide) (by decide) (by decide)
      (by decide) (by decide) (by decide)⟩

/-- C4: `os_slug_from_tag` depends only on the lowered tag (case
insensitivity); a tag matching the ubuntu-24 pattern is classified
`"ubuntu_24"` and one matching only the ubuntu-22 pattern `"ubuntu_22"`,
regardless of any other substring such as `"linux"` (the ubuntu tests
come first); and the two spec examples evaluate as stated. -/
theorem C4_slug_priority :
    (∀ s t : String, s.data.map Char.toLower = t.data.map Char.toLower →
      os_slug_from_tag s = os_slug_from_tag t) ∧
    (∀ tag : String, searchUbuntu '2' '4' (lowerStr tag) = true →
      os_slug_from_tag tag = "ubuntu_24") ∧
    (∀ tag : String, searchUbuntu '2' '4' (lowerStr tag) = false →
      searchUbuntu '2' '2' (lowerStr tag) = true →
      os_slug_from_tag tag = "ubuntu_22") ∧
    os_slug_from_tag "ManiVault-1.3.0-Ubuntu-24" = "ubuntu_24" ∧
    os_slug_from_tag "ManiVault_1.3_online_Windows" = "windows" ∧
    version_from_tag "ManiVault_1.3_online_Windows" = "1.3.0" := by
  refine ⟨?_, ?_, ?_, by decide, by decide, by decide⟩
  · intro s t h
    unfold os_slug_from_tag lowerStr
    rw [h]
  · intro tag h
    simp [os_slug_from_tag, h]
  · intro tag h1 h2
    simp [os_slug_from_tag, h1, h2]

/-- Witness for C4: tags containing `linux` still classify by the ubuntu
patterns, which are tested first. -/
theorem C4_slug_priority_witness :
    os_slug_from_tag "Linux-Ubuntu-24" = "ubuntu_24" ∧
      os_slug_from_tag "linux ubuntu 22" = "ubuntu_22" :=
  ⟨C4_slug_priority.2.1 "Linux-Ubuntu-24" (by decide),
   C4_slug_priority.2.2.1 "linux ubuntu 22" (by decide) (by decide)⟩

end InstallerInfo

namespace InstallerInfo

/-- C5 counterexample: the claim "an asset ending in `.dmg` is classified
`mac` regardless of the tag wording" fails at tag `"ManiVault-Windows"`
with asset `"installer.dmg"`: the `windows` test comes first in
`infer_os_for_frontmatter`, so the result is `"windows"`, not `"mac"`. -/
theorem C5_counterexample :
    infer_os_for_frontmatter "ManiVault-Windows" "installer.dmg" ≠ "mac" := by decide

-- An asset name ending in `.dmg` cannot also end in `.exe` or `.msi`.
theorem ends_dmg_not_exe_msi (an : List Char)
    (h : endsWithChars ".dmg".data an = true) :
    endsWithChars ".exe".data an = false ∧ endsWithChars ".msi".data an = false := by
  unfold endsWithChars at h ⊢
  rw [show (".dmg".data.reverse : List Char) = 'g' :: "md.".data from by decide] at h
  constructor
  · rw [show (".exe".data.reverse : List Char) = 'e' :: "xe.".data from by decide]
    exact startsWithChars_head_ne _ _ _ h (by decide)
  · rw [show (".msi".data.reverse : List Char) = 'i' :: "sm.".data from by decide]
    exact startsWithChars_head_ne _ _ _ h (by decide)

/-- C5 amended: an asset whose lowered name ends in `.dmg` is classified
`"mac"` by `infer_os_for_frontmatter` provided the substring `"windows"`
occurs in neither the lowered tag nor the lowered asset name (the
`windows` test precedes the `mac` test). -/
theorem C5_dmg_mac (tag an : String)
    (hdmg : endsWithChars ".dmg".data (lowerStr an) = true)
    (hwin : containsChars "windows".data (lowerStr tag ++ ' ' :: lowerStr an) = false) :
    infer_os_for_frontmatter tag an = "mac" := by
  obtain ⟨hexe, hmsi⟩ := ends_dmg_not_exe_msi _ hdmg
  simp [infer_os_for_frontmatter, hdmg, hwin, hexe, hmsi]

/-- Witness for the amended C5 at a concrete tag and asset. -/
theorem C5_dmg_mac_witness :
    infer_os_for_frontmatter "ManiVault-1.3.0-release" "Installer.DMG" = "mac" :=
  C5_dmg_mac "ManiVault-1.3.0-release" "Installer.DMG" (by decide) (by decide)

/-- C6 counterexample: the claim says `size_mb` uses standard rounding of
`n / 2^20`.  At `n = 2621440` the exact quotient is `2.5`; standard
rounding (half away from zero, `roundHalfUp`) gives `3`, but the script
(Python `round`, ties to even) produces `"2 MB"`. -/
theorem C6_counterexample :
    size_mb (some 2621440) = "2 MB" ∧ roundHalfUp 2621440 (1024 * 1024) = 3 ∧
      ("2 MB" : String) ≠ "3 MB" := by
  refine ⟨by decide, by decide, by decide⟩

/-- C6 amended: `size_mb` formats the number of megabytes obtained by
rounding `n / 2^20` to the nearest integer with ties to even (Python
`round`); a missing size or `0` yields `"0 MB"`.  The bound `n < 2^53`
marks the range on which the script's floating-point division is exact. -/
theorem C6_rounding :
    size_mb none = "0 MB" ∧ size_mb (some 0) = "0 MB" ∧
    ∀ n : Nat, n < 2 ^ 53 →
      ∃ r : Nat, size_mb (some n) = Nat.repr r ++ " MB" ∧
        (∀ k : Nat, ((n : Int) - 2 ^ 20 * r).natAbs ≤ ((n : Int) - 2 ^ 20 * k).natAbs) ∧
        (((n : Int) - 2 ^ 20 * r).natAbs = 2 ^ 19 → r % 2 = 0) := by
  refine ⟨by decide, by decide, ?_⟩
  intro n hn
  refine ⟨roundHalfEven n (1024 * 1024), rfl, ?_, ?_⟩
  · intro k
    unfold roundHalfEven
    dsimp only
    have h1 : n % (1024 * 1024) < 1024 * 1024 := Nat.mod_lt _ (by norm_num)
    have h2 : 1024 * 1024 * (n / (1024 * 1024)) + n % (1024 * 1024) = n :=
      Nat.div_add_mod n (1024 * 1024)
    split_ifs <;> omega
  · intro htie
    unfold roundHalfEven at htie ⊢
    dsimp only at htie ⊢
    have h1 : n % (1024 * 1024) < 1024 * 1024 := Nat.mod_lt _ (by norm_num)
    have h2 : 1024 * 1024 * (n / (1024 * 1024)) + n % (1024 * 1024) = n :=
      Nat.div_add_mod n (1024 * 1024)
    split_ifs at htie ⊢ <;> omega

/-- Witness for the amended C6 at a concrete byte count. -/
theorem C6_rounding_witness :
    ∃ r : Nat, size_mb (some 2621440) = Nat.repr r ++ " MB" ∧
      (∀ k : Nat, ((2621440 : Int) - 2 ^ 20 * r).natAbs ≤ ((2621440 : Int) - 2 ^ 20 * k).natAbs) ∧
      (((2621440 : Int) - 2 ^ 20 * r).natAbs = 2 ^ 19 → r % 2 = 0) :=
  C6_rounding.2.2 2621440 (by norm_num)

end InstallerInfo


namespace InstallerInfo

-- Characters of a `takeWhile Char.isDigit` result are digits, and the run
-- is nonempty when `isEmpty` is false.
theorem allDigits_of_takeWhile_eq {l d : List Char}
    (he : l.takeWhile Char.isDigit = d) (h : ¬ d.isEmpty = true) :
    allDigits d := by
  subst he
  constructor
  · intro hnil
    rw [hnil] at h
    simp at h
  · intro c hc
    exact List.mem_takeWhile_imp hc

-- Soundness of the anchored regex match: the result is a prefix of the
-- input and has the two- or three-part dotted shape.
theorem matchVersionAt_sound {cs v : List Char} (h : matchVersionAt cs = some v) :
    (∃ rest, cs = v ++ rest) ∧ versionCore v := by
  unfold matchVersionAt at h
  dsimp only at h
  generalize hd1e : cs.takeWhile Char.isDigit = d1 at h
  have hcs : d1 ++ cs.dropWhile Char.isDigit = cs := by
    rw [← hd1e]
    exact List.takeWhile_append_dropWhile Char.isDigit cs
  split at h
  · exact absurd h (by simp)
  next hd1 =>
  have ha : allDigits d1 := allDigits_of_takeWhile_eq hd1e hd1
  generalize hdwe : cs.dropWhile Char.isDigit = dw at h hcs
  cases dw with
  | nil => exact absurd h (by simp)
  | cons c r2 =>
  dsimp only at h
  by_cases hc : c = '.'
  case neg => rw [if_neg hc] at h; exact absurd h (by simp)
  case pos =>
  subst hc
  rw [if_pos rfl] at h
  generalize hd2e : r2.takeWhile Char.isDigit = d2 at h
  have hr2 : d2 ++ r2.dropWhile Char.isDigit = r2 := by
    rw [← hd2e]
    exact List.takeWhile_append_dropWhile Char.isDigit r2
  split at h
  · exact absurd h (by simp)
  next hd2 =>
  have hb : allDigits d2 := allDigits_of_takeWhile_eq hd2e hd2
  generalize hdw2e : r2.dropWhile Char.isDigit = dw2 at h hr2
  cases dw2 with
  | nil =>
    dsimp only at h
    injection h with hv
    refine ⟨⟨[], ?_⟩, Or.inl ⟨_, _, hv.symm, ha, hb⟩⟩
    rw [← hv, ← hcs, ← hr2]
    simp
  | cons c2 r4 =>
  dsimp only at h
  by_cases hc2 : c2 = '.'
  case neg =>
    rw [if_neg hc2] at h
    injection h with hv
    refine ⟨⟨c2 :: r4, ?_⟩, Or.inl ⟨_, _, hv.symm, ha, hb⟩⟩
    rw [← hv, ← hcs, ← hr2]
    simp
  case pos =>
  subst hc2
  rw [if_pos rfl] at h
  generalize hd3e : r4.takeWhile Char.isDigit = d3 at h
  split at h
  next hd3 =>
    injection h with hv
    refine ⟨⟨'.' :: r4, ?_⟩, Or.inl ⟨_, _, hv.symm, ha, hb⟩⟩
    rw [← hv, ← hcs, ← hr2]
    simp
  next hd3 =>
    injection h with hv
    have hc3 : allDigits d3 := allDigits_of_takeWhile_eq hd3e hd3
    have hr4 : d3 ++ r4.dropWhile Char.isDigit = r4 := by
      rw [← hd3e]
      exact List.takeWhile_append_dropWhile Char.isDigit r4
    generalize hdw4e : r4.dropWhile Char.isDigit = dw4 at hr4
    refine ⟨⟨dw4, ?_⟩, Or.inr ⟨_, _, _, hv.symm, ha, hb, hc3⟩⟩
    rw [← hv, ← hcs, ← hr2, ← hr4]
    simp

end InstallerInfo

namespace InstallerInfo

-- Completeness of the anchored match: at the start of
-- `a ++ '.' :: (b ++ rest)` with nonempty digit runs `a` and `b`, the
-- regex matches.
theorem matchVersionAt_isSome (a b rest : List Char) (ha : allDigits a) (hb : allDigits b) :
    (matchVersionAt (a ++ '.' :: (b ++ rest))).isSome = true := by
  obtain ⟨tw, dw⟩ :=
    takeWhile_append_of_not Char.isDigit a '.' (b ++ rest) ha.2 (by decide)
  have haE : a.isEmpty = false := by
    cases a with
    | nil => exact absurd rfl ha.1
    | cons x xs => rfl
  obtain ⟨b0, bs, hbcons⟩ : ∃ b0 bs, b = b0 :: bs := by
    cases b with
    | nil => exact absurd rfl hb.1
    | cons b0 bs => exact ⟨b0, bs, rfl⟩
  have hb0 : b0.isDigit = true := hb.2 b0 (by rw [hbcons]; simp)
  have hbE : ((b ++ rest).takeWhile Char.isDigit).isEmpty = false := by
    rw [hbcons]
    simp [List.takeWhile, hb0]
  unfold matchVersionAt
  dsimp only
  rw [tw, dw, haE]
  simp only [Bool.false_eq_true, if_false]
  rw [if_pos trivial, hbE]
  simp only [Bool.false_eq_true, if_false]
  cases hdw2 : (b ++ rest).dropWhile Char.isDigit with
  | nil => rfl
  | cons c2 r4 =>
    dsimp only
    by_cases hc2 : c2 = '.'
    · rw [if_pos hc2]
      by_cases hd3 : ((r4.takeWhile Char.isDigit).isEmpty : Prop)
      · rw [if_pos hd3]
        rfl
      · rw [if_neg hd3]
        rfl
    · rw [if_neg hc2]
      rfl

-- Soundness of the search: a returned match occurs in the input and has
-- the dotted-version shape.
theorem searchVersion_sound : ∀ {cs v : List Char}, searchVersion cs = some v →
    occursIn v cs ∧ versionCore v := by
  intro cs
  induction cs with
  | nil => intro v h; simp [searchVersion] at h
  | cons c cs ih =>
    intro v h
    unfold searchVersion at h
    cases hm : matchVersionAt (c :: cs) with
    | some w =>
      rw [hm] at h
      injection h with h2
      subst h2
      obtain ⟨⟨rest, hrest⟩, hcore⟩ := matchVersionAt_sound hm
      exact ⟨⟨[], rest, by simpa using hrest⟩, hcore⟩
    | none =>
      rw [hm] at h
      obtain ⟨⟨pre, post, hocc⟩, hcore⟩ := ih h
      exact ⟨⟨c :: pre, post, by simp [hocc]⟩, hcore⟩

-- Completeness of the search relative to an anchored match in a suffix.
theorem searchVersion_isSome_of_matchAt {s : List Char}
    (h : (matchVersionAt s).isSome = true) :
    ∀ pre : List Char, (searchVersion (pre ++ s)).isSome = true := by
  intro pre
  induction pre with
  | nil =>
    rw [List.nil_append]
    cases s with
    | nil => simp [matchVersionAt] at h
    | cons c cs =>
      unfold searchVersion
      obtain ⟨v, hv⟩ := Option.isSome_iff_exists.mp h
      rw [hv]
      rfl
  | cons c pre ih =>
    rw [List.cons_append]
    unfold searchVersion
    cases hm : matchVersionAt (c :: (pre ++ s)) with
    | some u => rfl
    | none => exact ih

-- A tag containing a dotted version makes the search succeed.
theorem searchVersion_isSome_of_hasDotted {cs : List Char} (h : hasDottedVersion cs) :
    (searchVersion cs).isSome = true := by
  obtain ⟨pre, a, b, post, hcs, ha, hb⟩ := h
  have hmatch := matchVersionAt_isSome a b post ha hb
  have hshape : cs = pre ++ (a ++ '.' :: (b ++ post)) := by rw [hcs]; simp
  rw [hshape]
  exact searchVersion_isSome_of_matchAt hmatch pre

-- A digit run contains no dot.
theorem count_dot_digits (l : List Char) (hl : ∀ c ∈ l, c.isDigit = true) :
    l.count '.' = 0 := by
  refine List.count_eq_zero.mpr ?_
  intro hmem
  exact absurd (hl _ hmem) (by decide)

-- The dot count separates the two shapes of a match.
theorem versionCore_count {v : List Char} (h : versionCore v) :
    (∃ a b, v = a ++ '.' :: b ∧ allDigits a ∧ allDigits b ∧ v.count '.' = 1) ∨
    (∃ a b c, v = a ++ '.' :: b ++ '.' :: c ∧ allDigits a ∧ allDigits b ∧ allDigits c ∧
      v.count '.' = 2) := by
  rcases h with ⟨a, b, hab, ha, hb⟩ | ⟨a, b, c, habc, ha, hb, hc⟩
  · refine Or.inl ⟨a, b, hab, ha, hb, ?_⟩
    subst hab
    simp [List.count_append, List.count_cons, count_dot_digits a ha.2,
      count_dot_digits b hb.2]
  · refine Or.inr ⟨a, b, c, habc, ha, hb, hc, ?_⟩
    subst habc
    simp [List.count_append, List.count_cons, count_dot_digits a ha.2,
      count_dot_digits b hb.2, count_dot_digits c hc.2]

end InstallerInfo

namespace InstallerInfo

/-- C3: a tag containing a two- or three-part dotted version number makes
`version_from_tag` return a contained dotted number normalized to three
components (a two-part match gains a trailing `.0`, a three-part match is
returned as is); a tag containing none returns `"0.0.0"`. -/
theorem C3_version_from_tag (tag : String) :
    (hasDottedVersion tag.data →
      ∃ m, occursIn m tag.data ∧
        ((∃ a b, m = a ++ '.' :: b ∧ allDigits a ∧ allDigits b ∧
            (version_from_tag tag).data = m ++ ['.', '0']) ∨
         (∃ a b c, m = a ++ '.' :: b ++ '.' :: c ∧
            allDigits a ∧ allDigits b ∧ allDigits c ∧
            (version_from_tag tag).data = m))) ∧
    (¬ hasDottedVersion tag.data → version_from_tag tag = "0.0.0") := by
  constructor
  · intro h
    obtain ⟨w, hw⟩ :=
      Option.isSome_iff_exists.mp (searchVersion_isSome_of_hasDotted h)
    obtain ⟨hocc, hcore⟩ := searchVersion_sound hw
    refine ⟨w, hocc, ?_⟩
    rcases versionCore_count hcore with
      ⟨a, b, hab, ha, hb, hcount⟩ | ⟨a, b, c, habc, ha, hb, hc, hcount⟩
    · refine Or.inl ⟨a, b, hab, ha, hb, ?_⟩
      unfold version_from_tag
      rw [hw]
      dsimp only
      rw [if_neg (by omega), String.data_append]
    · refine Or.inr ⟨a, b, c, habc, ha, hb, hc, ?_⟩
      unfold version_from_tag
      rw [hw]
      dsimp only
      rw [if_pos hcount]
  · intro h
    cases hs : searchVersion tag.data with
    | none =>
      unfold version_from_tag
      rw [hs]
    | some w =>
      exfalso
      apply h
      obtain ⟨⟨pre, post, hocc⟩, hcore⟩ := searchVersion_sound hs
      rcases hcore with ⟨a, b, hab, ha, hb⟩ | ⟨a, b, c, habc, ha, hb, hc⟩
      · refine ⟨pre, a, b, post, ?_, ha, hb⟩
        rw [hocc, hab]
        simp
      · refine ⟨pre, a, b, '.' :: (c ++ post), ?_, ha, hb⟩
        rw [hocc, habc]
        simp

/-- Witness for C3 at concrete tags: one with a two-part version, one
without any version. -/
theorem C3_version_from_tag_witness :
    (∃ m, occursIn m ("ManiVault-1.3" : String).data ∧
      ((∃ a b, m = a ++ '.' :: b ∧ allDigits a ∧ allDigits b ∧
          (version_from_tag "ManiVault-1.3").data = m ++ ['.', '0']) ∨
       (∃ a b c, m = a ++ '.' :: b ++ '.' :: c ∧
          allDigits a ∧ allDigits b ∧ allDigits c ∧
          (version_from_tag "ManiVault-1.3").data = m))) ∧
    version_from_tag "ManiVault" = "0.0.0" := by
  constructor
  · exact (C3_version_from_tag "ManiVault-1.3").1
      ⟨"ManiVault-".data, ['1'], ['3'], [], by decide, ⟨by decide, by decide⟩,
        ⟨by decide, by decide⟩⟩
  · refine (C3_version_from_tag "ManiVault").2 ?_
    intro h
    have hs := searchVersion_isSome_of_hasDotted h
    rw [show searchVersion ("ManiVault" : String).data = none from by decide] at hs
    simp at hs

-- The result of `version_from_tag` always splits into three dot-separated
-- nonempty digit runs.
theorem version_shape (tag : String) :
    ∃ a b c, allDigits a ∧ allDigits b ∧ allDigits c ∧
      (version_from_tag tag).data = a ++ '.' :: b ++ '.' :: c := by
  cases hs : searchVersion tag.data with
  | none =>
    refine ⟨['0'], ['0'], ['0'], ⟨by decide, by decide⟩, ⟨by decide, by decide⟩,
      ⟨by decide, by decide⟩, ?_⟩
    unfold version_from_tag
    rw [hs]
    decide
  | some w =>
    obtain ⟨hocc, hcore⟩ := searchVersion_sound hs
    rcases versionCore_count hcore with
      ⟨a, b, hab, ha, hb, hcount⟩ | ⟨a, b, c, habc, ha, hb, hc, hcount⟩
    · refine ⟨a, b, ['0'], ha, hb, ⟨by decide, by decide⟩, ?_⟩
      unfold version_from_tag
      rw [hs]
      dsimp only
      rw [if_neg (by omega), String.data_append]
      show w ++ ['.', '0'] = _
      rw [hab]
    · refine ⟨a, b, c, ha, hb, hc, ?_⟩
      unfold version_from_tag
      rw [hs]
      dsimp only
      rw [if_pos hcount]
      show w = _
      rw [habc]

-- Inversion of a successful run of `main`: the release fields it read,
-- the produced file name, and the produced markdown.
theorem main_ok_inv {rel : Release} {fn md : String}
    (h : main rel = Except.ok (fn, md)) :
    ∃ a0 rest t iso date_str,
      rel.assets.getD [] = a0 :: rest ∧
      os_meta (infer_os_for_frontmatter (rel.tag_name.getD "") (a0.name.getD "")) =
        some t ∧
      pyOrStr rel.published_at rel.created_at = some iso ∧
      fmt_date iso = some date_str ∧
      fn = version_from_tag (rel.tag_name.getD "") ++ "_" ++
        os_slug_from_tag (rel.tag_name.getD "") ++ ".md" ∧
      md = render_md t.1 t.2.1 t.2.2.1 t.2.2.2.1 t.2.2.2.2.1 t.2.2.2.2.2
        (version_from_tag (rel.tag_name.getD "")) date_str (size_mb a0.size)
        (pyStr a0.browser_download_url) := by
  unfold main at h
  cases ha : rel.assets.getD [] with
  | nil =>
    rw [ha] at h
    exact absurd h (by simp)
  | cons a0 rest =>
    rw [ha] at h
    dsimp only at h
    cases hm : os_meta (infer_os_for_frontmatter (rel.tag_name.getD "") (a0.name.getD "")) with
    | none =>
      rw [hm] at h
      exact absurd h (by simp)
    | some t =>
      obtain ⟨name, short, compat, key, order, icon⟩ := t
      rw [hm] at h
      dsimp only at h
      cases hio : pyOrStr rel.published_at rel.created_at with
      | none =>
        rw [hio] at h
        exact absurd h (by simp)
      | some iso =>
        rw [hio] at h
        dsimp only at h
        cases hfd : fmt_date iso with
        | none =>
          rw [hfd] at h
          exact absurd h (by simp)
        | some date_str =>
          rw [hfd] at h
          dsimp only at h
          injection h with h2
          injection h2 with hfn hmd
          exact ⟨a0, rest, (name, short, compat, key, order, icon), iso, date_str,
            rfl, hm, rfl, hfd, hfn.symm, hmd.symm⟩

/-- C10: for every tag, `version_from_tag` yields exactly three
dot-separated nonempty digit components; consequently the file name of
every successful `main` run begins with such a three-component version. -/
theorem C10_three_components (tag : String) :
    (∃ a b c, allDigits a ∧ allDigits b ∧ allDigits c ∧
      (version_from_tag tag).data = a ++ '.' :: b ++ '.' :: c) ∧
    (∀ (rel : Release) (fn md : String), main rel = Except.ok (fn, md) →
      rel.tag_name = some tag →
      ∃ a b c rest, allDigits a ∧ allDigits b ∧ allDigits c ∧
        fn.data = a ++ '.' :: b ++ '.' :: c ++ rest) := by
  refine ⟨version_shape tag, ?_⟩
  intro rel fn md hmain htag
  obtain ⟨a0, rest0, t, iso, ds, _, _, _, _, hfn, _⟩ := main_ok_inv hmain
  obtain ⟨a, b, c, ha, hb, hc, hv⟩ := version_shape tag
  refine ⟨a, b, c, ("_" ++ os_slug_from_tag tag ++ ".md").data, ha, hb, hc, ?_⟩
  rw [hfn, htag]
  simp only [Option.getD_some, String.data_append]
  rw [hv]
  simp [List.append_assoc]

/-- Witness for C10: the three-component shape at a concrete tag with a
two-part version number. -/
theorem C10_three_components_witness :
    ∃ a b c, allDigits a ∧ allDigits b ∧ allDigits c ∧
      (version_from_tag "ManiVault_1.3_online_Windows").data =
        a ++ '.' :: b ++ '.' :: c :=
  (C10_three_components "ManiVault_1.3_online_Windows").1

end InstallerInfo

namespace InstallerInfo

-- The `os_meta` lookup on an inferred key always succeeds.
theorem os_meta_infer_isSome (tag an : String) :
    ∃ t, os_meta (infer_os_for_frontmatter tag an) = some t := by
  rcases infer_os_cases tag an with h | h | h <;> rw [h] <;> exact ⟨_, rfl⟩

-- The rendered markdown always carries a `download-link:` line, delimited
-- by newlines, directly before the closing front-matter fence.
set_option maxRecDepth 4096 in
theorem render_md_link (name short compat key : String) (order : Nat)
    (icon version date_str size_str url : String) :
    ∃ pre : List Char,
      (render_md name short compat key order icon version date_str size_str url).data =
        pre ++ '\n' :: ("download-link: ".data ++ url.data ++ '\n' ::
          ("---\n".data ++ version.data ++ " release of ManiVault Studio.\n".data)) := by
  refine ⟨("---\n" ++ "layout: plugin\n" ++ "name: \"" ++ name ++ "\"\n" ++
    "shortname: \"" ++ short ++ "\"\n" ++ "compatibility: \"" ++ compat ++ "\"\n" ++
    "key: " ++ key ++ "\n" ++ "type: installer\n" ++ "image: \n" ++
    "version: " ++ version ++ "\n" ++ "date:   " ++ date_str ++ "\n" ++
    "order: " ++ Nat.repr order ++ "\n" ++ "icon: " ++ icon ++ "\n" ++
    "size: " ++ size_str ++ "\n" ++ "\n" ++ "organization: ManiVault\n" ++
    "organization-link: https://www.manivault.studio").data, ?_⟩
  have h1 : ("organization-link: https://www.manivault.studio\n" : String).data =
      ("organization-link: https://www.manivault.studio" : String).data ++ ['\n'] := rfl
  have h2 : ("\n" : String).data = ['\n'] := rfl
  simp [render_md, String.data_append, h1, h2, List.append_assoc]

/-- C1: on a well-formed release (an asset list headed by `a0`, a tag, a
download URL, and a date `fmt_date` accepts), `main` succeeds, the file
name is `version_from_tag(tag) ++ "_" ++ os_slug_from_tag(tag) ++ ".md"`
(written inside `DEST_DIR`), and the markdown contains the front-matter
line `download-link: <url>` verbatim, directly before the closing
`---` fence. -/
theorem C1_output (rel : Release) (a0 : Asset) (rest : List Asset)
    (tag u iso ds : String)
    (ha : rel.assets = some (a0 :: rest))
    (ht : rel.tag_name = some tag)
    (hu : a0.browser_download_url = some u)
    (hnl : '\n' ∉ u.data)
    (hiso : pyOrStr rel.published_at rel.created_at = some iso)
    (hds : fmt_date iso = some ds) :
    ∃ md : String,
      main rel =
        Except.ok (version_from_tag tag ++ "_" ++ os_slug_from_tag tag ++ ".md", md) ∧
      ∃ pre : List Char,
        md.data = pre ++ '\n' :: ("download-link: ".data ++ u.data ++ '\n' ::
          ("---\n".data ++ (version_from_tag tag).data ++
            " release of ManiVault Studio.\n".data)) ∧
        '\n' ∉ "download-link: ".data ++ u.data := by
  unfold main
  rw [ha, ht]
  simp only [Option.getD_some]
  try dsimp only
  obtain ⟨⟨n, s, c, k, o, i⟩, htup⟩ := os_meta_infer_isSome tag (a0.name.getD "")
  rw [htup]
  try dsimp only
  rw [hiso]
  try dsimp only
  rw [hds]
  try dsimp only
  rw [hu]
  refine ⟨_, rfl, ?_⟩
  obtain ⟨pre, hpre⟩ :=
    render_md_link n s c k o i (version_from_tag tag) ds (size_mb a0.size) (pyStr (some u))
  refine ⟨pre, ?_, ?_⟩
  · rw [hpre]
    rfl
  · intro hmem
    rcases List.mem_append.mp hmem with hmem | hmem
    · exact absurd hmem (by decide)
    · exact hnl hmem

end InstallerInfo

namespace InstallerInfo

/-- Concrete release used by the witness of C1. -/
def sampleRelease : Release :=
  { tag_name := some "ManiVault-1.3.0-Ubuntu-24",
    assets := some [{ name := some "ManiVault-1.3.0.deb", size := some 89128960,
                      browser_download_url := some "https://example.com/ManiVault-1.3.0.deb" }],
    published_at := some "2024-05-03T12:34:56Z",
    created_at := none }

/-- Witness for C1 at a concrete well-formed release. -/
theorem C1_output_witness :
    ∃ md : String,
      main sampleRelease =
        Except.ok (version_from_tag "ManiVault-1.3.0-Ubuntu-24" ++ "_" ++
          os_slug_from_tag "ManiVault-1.3.0-Ubuntu-24" ++ ".md", md) ∧
      ∃ pre : List Char,
        md.data = pre ++ '\n' :: ("download-link: ".data ++
          ("https://example.com/ManiVault-1.3.0.deb" : String).data ++ '\n' ::
          ("---\n".data ++ (version_from_tag "ManiVault-1.3.0-Ubuntu-24").data ++
            " release of ManiVault Studio.\n".data)) ∧
        '\n' ∉ "download-link: ".data ++
          ("https://example.com/ManiVault-1.3.0.deb" : String).data :=
  C1_output sampleRelease
    { name := some "ManiVault-1.3.0.deb", size := some 89128960,
      browser_download_url := some "https://example.com/ManiVault-1.3.0.deb" } []
    "ManiVault-1.3.0-Ubuntu-24" "https://example.com/ManiVault-1.3.0.deb"
    "2024-05-03T12:34:56Z" "2024-05-03 12:34:56" rfl rfl rfl (by decide) rfl rfl

end InstallerInfo

namespace InstallerInfo

-- Every character `Nat.toDigitsCore` adds in base 10 is a decimal digit.
theorem toDigitsCore_mem (fuel : Nat) :
    ∀ (n : Nat) (acc : List Char) (c : Char),
      c ∈ Nat.toDigitsCore 10 fuel n acc → c ∈ acc ∨ c.isDigit = true := by
  induction fuel with
  | zero =>
    intro n acc c hc
    simp only [Nat.toDigitsCore] at hc
    exact Or.inl hc
  | succ fuel ih =>
    intro n acc c hc
    simp only [Nat.toDigitsCore] at hc
    have hd : (Nat.digitChar (n % 10)).isDigit = true := by
      have h10 : n % 10 < 10 := Nat.mod_lt _ (by norm_num)
      set m := n % 10 with hm
      interval_cases m <;> decide
    split at hc
    · rcases List.mem_cons.mp hc with rfl | hmem
      · exact Or.inr hd
      · exact Or.inl hmem
    · rcases ih (n / 10) (Nat.digitChar (n % 10) :: acc) c hc with hmem | hdig
      · rcases List.mem_cons.mp hmem with rfl | hmem2
        · exact Or.inr hd
        · exact Or.inl hmem2
      · exact Or.inr hdig

-- The decimal representation of a natural number contains only digits.
theorem repr_digits (n : Nat) : ∀ c ∈ (Nat.repr n).data, c.isDigit = true := by
  intro c hc
  have he : (Nat.repr n).data = Nat.toDigitsCore 10 (n + 1) n [] := rfl
  rw [he] at hc
  rcases toDigitsCore_mem (n + 1) n [] c hc with h | h
  · simp at h
  · exact h

-- A successful `fmt_date` output consists of digits and the separators
-- `-`, space and `:`.
set_option maxHeartbeats 1000000 in
theorem fmt_date_chars {iso d : String} (h : fmt_date iso = some d) :
    ∀ c ∈ d.data, c.isDigit = true ∨ c = '-' ∨ c = ' ' ∨ c = ':' := by
  unfold fmt_date at h
  split at h
  case _ y1 y2 y3 y4 m1 m2 d1 d2 h1 h2 i1 i2 s1 s2 heq =>
    split at h
    case isTrue hall =>
      injection h with hd
      subst hd
      intro c hc
      simp only [List.all_cons, List.all_nil, Bool.and_eq_true, Bool.and_true] at hall
      obtain ⟨q1, q2, q3, q4, q5, q6, q7, q8, q9, q10, q11, q12, q13, q14⟩ := hall
      dsimp only at hc
      simp only [List.mem_cons, List.not_mem_nil, or_false] at hc
      rcases hc with rfl | rfl | rfl | rfl | rfl | rfl | rfl | rfl | rfl | rfl | rfl |
        rfl | rfl | rfl | rfl | rfl | rfl | rfl | rfl
      · exact Or.inl q1
      · exact Or.inl q2
      · exact Or.inl q3
      · exact Or.inl q4
      · exact Or.inr (Or.inl rfl)
      · exact Or.inl q5
      · exact Or.inl q6
      · exact Or.inr (Or.inl rfl)
      · exact Or.inl q7
      · exact Or.inl q8
      · exact Or.inr (Or.inr (Or.inl rfl))
      · exact Or.inl q9
      · exact Or.inl q10
      · exact Or.inr (Or.inr (Or.inr rfl))
      · exact Or.inl q11
      · exact Or.inl q12
      · exact Or.inr (Or.inr (Or.inr rfl))
      · exact Or.inl q13
      · exact Or.inl q14
    case isFalse => exact absurd h (by simp)
  case _ => exact absurd h (by simp)

-- A `fmt_date` output contains no newline.
theorem fmt_date_no_newline {iso d : String} (h : fmt_date iso = some d) :
    '\n' ∉ d.data := by
  intro hmem
  rcases fmt_date_chars h '\n' hmem with h1 | h1 | h1 | h1 <;>
    exact absurd h1 (by decide)

-- The normalized version string contains no newline.
theorem version_no_newline (tag : String) : '\n' ∉ (version_from_tag tag).data := by
  obtain ⟨a, b, c, ha, hb, hc, hv⟩ := version_shape tag
  rw [hv]
  intro hmem
  rcases List.mem_append.mp hmem with hm | hm
  · rcases List.mem_append.mp hm with hm2 | hm2
    · exact absurd (ha.2 _ hm2) (by decide)
    · rcases List.mem_cons.mp hm2 with heq | hm3
      · exact absurd heq (by decide)
      · exact absurd (hb.2 _ hm3) (by decide)
  · rcases List.mem_cons.mp hm with heq | hm3
    · exact absurd heq (by decide)
    · exact absurd (hc.2 _ hm3) (by decide)

-- The formatted size contains no newline.
theorem size_mb_no_newline (x : Option Nat) : '\n' ∉ (size_mb x).data := by
  unfold size_mb
  rw [String.data_append]
  intro hmem
  rcases List.mem_append.mp hmem with hm | hm
  · exact absurd (repr_digits _ _ hm) (by decide)
  · exact absurd hm (by decide)

-- `lineKey` of a line starting with a colon-free key followed by `:`.
theorem lineKey_eq (k r : List Char) (hk : ∀ c ∈ k, (c != ':') = true) :
    lineKey (k ++ ':' :: r) = some k := by
  obtain ⟨tw, dw⟩ := takeWhile_append_of_not (fun c => c != ':') k ':' r hk (by decide)
  unfold lineKey
  rw [dw]
  dsimp only
  rw [tw]

-- `lineKey` through a line of the shape `(key ++ ':' :: pad) ++ value`.
theorem lineKey_app2 (k r0 val : List Char) (hk : ∀ c ∈ k, (c != ':') = true) :
    lineKey ((k ++ ':' :: r0) ++ val) = some k := by
  have e : (k ++ ':' :: r0) ++ val = k ++ ':' :: (r0 ++ val) := by simp
  rw [e]
  exact lineKey_eq k (r0 ++ val) hk

-- `lineKey` through a line of the shape `(key ++ ':' :: pad) ++ value ++ tail`.
theorem lineKey_app3 (k r0 val tail : List Char) (hk : ∀ c ∈ k, (c != ':') = true) :
    lineKey ((k ++ ':' :: r0) ++ val ++ tail) = some k := by
  have e : (k ++ ':' :: r0) ++ val ++ tail = k ++ ':' :: (r0 ++ (val ++ tail)) := by simp
  rw [e]
  exact lineKey_eq k (r0 ++ (val ++ tail)) hk

-- Two- and three-part append lists without newlines.
theorem no_nl_append2 {A B : List Char} (hA : '\n' ∉ A) (hB : '\n' ∉ B) :
    '\n' ∉ A ++ B := by
  intro h
  rcases List.mem_append.mp h with h | h
  · exact hA h
  · exact hB h

theorem no_nl_append3 {A B C : List Char} (hA : '\n' ∉ A) (hB : '\n' ∉ B)
    (hC : '\n' ∉ C) : '\n' ∉ A ++ B ++ C :=
  no_nl_append2 (no_nl_append2 hA hB) hC

end InstallerInfo

namespace InstallerInfo

-- Structural description of the rendered markdown: a front-matter block
-- of newline-free lines whose keys are exactly `frontMatterKeys`, between
-- two `---` fences, followed by a single line of body text.
set_option maxRecDepth 8192 in
theorem render_md_front_matter (name short compat key : String) (order : Nat)
    (icon version date_str size_str url : String)
    (hname : '\n' ∉ name.data) (hshort : '\n' ∉ short.data)
    (hcompat : '\n' ∉ compat.data) (hkey : '\n' ∉ key.data)
    (hicon : '\n' ∉ icon.data) (hversion : '\n' ∉ version.data)
    (hdate : '\n' ∉ date_str.data) (hsize : '\n' ∉ size_str.data)
    (hurl : '\n' ∉ url.data) :
    ∃ (fmLines : List (List Char)) (body : List Char),
      (render_md name short compat key order icon version date_str size_str url).data =
        "---\n".data ++ joinNL fmLines ++ "---\n".data ++ body ++ ['\n'] ∧
      fmLines.filterMap lineKey = frontMatterKeys ∧
      (∀ l ∈ fmLines, '\n' ∉ l) ∧
      '\n' ∉ body := by
  refine ⟨["layout: plugin".data,
    "name: \"".data ++ name.data ++ "\"".data,
    "shortname: \"".data ++ short.data ++ "\"".data,
    "compatibility: \"".data ++ compat.data ++ "\"".data,
    "key: ".data ++ key.data,
    "type: installer".data,
    "image: ".data,
    "version: ".data ++ version.data,
    "date:   ".data ++ date_str.data,
    "order: ".data ++ (Nat.repr order).data,
    "icon: ".data ++ icon.data,
    "size: ".data ++ size_str.data,
    [],
    "organization: ManiVault".data,
    "organization-link: https://www.manivault.studio".data,
    "download-link: ".data ++ url.data],
    version.data ++ " release of ManiVault Studio.".data, ?_, ?_, ?_, ?_⟩
  · have hA : ("layout: plugin\n" : String).data =
        ("layout: plugin" : String).data ++ ['\n'] := rfl
    have hB : ("\"\n" : String).data = ("\"" : String).data ++ ['\n'] := rfl
    have hC : ("\n" : String).data = ['\n'] := rfl
    have hD : ("type: installer\n" : String).data =
        ("type: installer" : String).data ++ ['\n'] := rfl
    have hE : ("image: \n" : String).data = ("image: " : String).data ++ ['\n'] := rfl
    have hF : ("organization: ManiVault\n" : String).data =
        ("organization: ManiVault" : String).data ++ ['\n'] := rfl
    have hG : ("organization-link: https://www.manivault.studio\n" : String).data =
        ("organization-link: https://www.manivault.studio" : String).data ++ ['\n'] := rfl
    have hH : (" release of ManiVault Studio.\n" : String).data =
        (" release of ManiVault Studio." : String).data ++ ['\n'] := rfl
    simp [render_md, joinNL, String.data_append, hA, hB, hC, hD, hE, hF, hG, hH,
      List.append_assoc]
  · have k1 : lineKey ("layout: plugin" : String).data = some ("layout" : String).data := by
      decide
    have k2 : lineKey (("name: \"" : String).data ++ name.data ++ ("\"" : String).data) =
        some ("name" : String).data := by
      rw [show ("name: \"" : String).data =
        ("name" : String).data ++ ':' :: [' ', '"'] from rfl]
      exact lineKey_app3 _ _ _ _ (by decide)
    have k3 : lineKey (("shortname: \"" : String).data ++ short.data ++
        ("\"" : String).data) = some ("shortname" : String).data := by
      rw [show ("shortname: \"" : String).data =
        ("shortname" : String).data ++ ':' :: [' ', '"'] from rfl]
      exact lineKey_app3 _ _ _ _ (by decide)
    have k4 : lineKey (("compatibility: \"" : String).data ++ compat.data ++
        ("\"" : String).data) = some ("compatibility" : String).data := by
      rw [show ("compatibility: \"" : String).data =
        ("compatibility" : String).data ++ ':' :: [' ', '"'] from rfl]
      exact lineKey_app3 _ _ _ _ (by decide)
    have k5 : lineKey (("key: " : String).data ++ key.data) =
        some ("key" : String).data := by
      rw [show ("key: " : String).data = ("key" : String).data ++ ':' :: [' '] from rfl]
      exact lineKey_app2 _ _ _ (by decide)
    have k6 : lineKey ("type: installer" : String).data =
        some ("type" : String).data := by decide
    have k7 : lineKey ("image: " : String).data = some ("image" : String).data := by
      decide
    have k8 : lineKey (("version: " : String).data ++ version.data) =
        some ("version" : String).data := by
      rw [show ("version: " : String).data =
        ("version" : String).data ++ ':' :: [' '] from rfl]
      exact lineKey_app2 _ _ _ (by decide)
    have k9 : lineKey (("date:   " : String).data ++ date_str.data) =
        some ("date" : String).data := by
      rw [show ("date:   " : String).data =
        ("date" : String).data ++ ':' :: [' ', ' ', ' '] from rfl]
      exact lineKey_app2 _ _ _ (by decide)
    have k10 : lineKey (("order: " : String).data ++ (Nat.repr order).data) =
        some ("order" : String).data := by
      rw [show ("order: " : String).data =
        ("order" : String).data ++ ':' :: [' '] from rfl]
      exact lineKey_app2 _ _ _ (by decide)
    have k11 : lineKey (("icon: " : String).data ++ icon.data) =
        some ("icon" : String).data := by
      rw [show ("icon: " : String).data = ("icon" : String).data ++ ':' :: [' '] from rfl]
      exact lineKey_app2 _ _ _ (by decide)
    have k12 : lineKey (("size: " : String).data ++ size_str.data) =
        some ("size" : String).data := by
      rw [show ("size: " : String).data = ("size" : String).data ++ ':' :: [' '] from rfl]
      exact lineKey_app2 _ _ _ (by decide)
    have k13 : lineKey ([] : List Char) = none := rfl
    have k14 : lineKey ("organization: ManiVault" : String).data =
        some ("organization" : String).data := by decide
    have k15 : lineKey ("organization-link: https://www.manivault.studio" : String).data =
        some ("organization-link" : String).data := by decide
    have k16 : lineKey (("download-link: " : String).data ++ url.data) =
        some ("download-link" : String).data := by
      rw [show ("download-link: " : String).data =
        ("download-link" : String).data ++ ':' :: [' '] from rfl]
      exact lineKey_app2 _ _ _ (by decide)
    simp only [List.filterMap_cons, List.filterMap_nil, k1, k2, k3, k4, k5, k6, k7, k8,
      k9, k10, k11, k12, k13, k14, k15, k16, frontMatterKeys]
  · intro l hl
    simp only [List.mem_cons, List.not_mem_nil, or_false] at hl
    rcases hl with rfl | rfl | rfl | rfl | rfl | rfl | rfl | rfl | rfl | rfl | rfl |
      rfl | rfl | rfl | rfl | rfl
    · decide
    · exact no_nl_append3 (by decide) hname (by decide)
    · exact no_nl_append3 (by decide) hshort (by decide)
    · exact no_nl_append3 (by decide) hcompat (by decide)
    · exact no_nl_append2 (by decide) hkey
    · decide
    · decide
    · exact no_nl_append2 (by decide) hversion
    · exact no_nl_append2 (by decide) hdate
    · exact no_nl_append2 (by decide) (fun hm => absurd (repr_digits order _ hm) (by decide))
    · exact no_nl_append2 (by decide) hicon
    · exact no_nl_append2 (by decide) hsize
    · decide
    · decide
    · decide
    · exact no_nl_append2 (by decide) hurl
  · exact no_nl_append2 hversion (by decide)

end InstallerInfo

namespace InstallerInfo

/-- C7: every markdown file a successful `main` run writes (for an asset
whose download URL holds no newline) is a front-matter block between two
`---` fences, whose newline-free lines carry exactly the fixed key set
layout, name, shortname, compatibility, key, type, image, version, date,
order, icon, size, organization, organization-link, download-link, in
template order, followed by exactly one line of body text. -/
theorem C7_front_matter (rel : Release) (a0 : Asset) (rest : List Asset)
    (fn md : String)
    (ha : rel.assets = some (a0 :: rest))
    (hmain : main rel = Except.ok (fn, md))
    (hurl : '\n' ∉ (pyStr a0.browser_download_url).data) :
    ∃ (fmLines : List (List Char)) (body : List Char),
      md.data = "---\n".data ++ joinNL fmLines ++ "---\n".data ++ body ++ ['\n'] ∧
      fmLines.filterMap lineKey = frontMatterKeys ∧
      (∀ l ∈ fmLines, '\n' ∉ l) ∧
      '\n' ∉ body := by
  obtain ⟨a0', rest', t, iso, ds, ha', hm, hio, hfd, hfn, hmd⟩ := main_ok_inv hmain
  rw [ha] at ha'
  simp only [Option.getD_some] at ha'
  injection ha' with h1 h2
  subst h1
  subst hmd
  rcases os_meta_some_cases hm with rfl | rfl | rfl <;>
    exact render_md_front_matter _ _ _ _ _ _ _ _ _ _ (by decide) (by decide) (by decide)
      (by decide) (by decide) (version_no_newline _) (fmt_date_no_newline hfd)
      (size_mb_no_newline _) hurl

set_option maxRecDepth 16384 in
/-- Witness for C7: the concrete markdown produced from the sample
release decomposes as front matter plus one body line. -/
theorem C7_front_matter_witness :
    ∃ (fmLines : List (List Char)) (body : List Char),
      ("---\nlayout: plugin\nname: \"Linux\"\nshortname: \"Linux\"\ncompatibility: \"Ubuntu 22.04+\"\nkey: linux\ntype: installer\nimage: \nversion: 1.3.0\ndate:   2024-05-03 12:34:56\norder: 2\nicon: linux\nsize: 85 MB\n\norganization: ManiVault\norganization-link: https://www.manivault.studio\ndownload-link: https://example.com/ManiVault-1.3.0.deb\n---\n1.3.0 release of ManiVault Studio.\n" : String).data =
        "---\n".data ++ joinNL fmLines ++ "---\n".data ++ body ++ ['\n'] ∧
      fmLines.filterMap lineKey = frontMatterKeys ∧
      (∀ l ∈ fmLines, '\n' ∉ l) ∧
      '\n' ∉ body :=
  C7_front_matter sampleRelease
    { name := some "ManiVault-1.3.0.deb", size := some 89128960,
      browser_download_url := some "https://example.com/ManiVault-1.3.0.deb" } []
    "1.3.0_ubuntu_24.md"
    "---\nlayout: plugin\nname: \"Linux\"\nshortname: \"Linux\"\ncompatibility: \"Ubuntu 22.04+\"\nkey: linux\ntype: installer\nimage: \nversion: 1.3.0\ndate:   2024-05-03 12:34:56\norder: 2\nicon: linux\nsize: 85 MB\n\norganization: ManiVault\norganization-link: https://www.manivault.studio\ndownload-link: https://example.com/ManiVault-1.3.0.deb\n---\n1.3.0 release of ManiVault Studio.\n"
    rfl rfl (by decide)

end InstallerInfo
